import Mathlib

/-!
# Verification of the DigiPratibha client resilience/orchestration layer

Shallow embedding of the client-side resilience layer of the repository:
the TTL cache, retry executor and uniform response envelope of
`APIBackendService` (src/unnamed/part_005), the dispatch table, telemetry
ring buffer and health aggregation of `BackendOrchestrator`
(src/lib/backend-orchestrator.ts), and the probe state machine of the
connection monitor.

Timestamps are modelled as integers (milliseconds), the JavaScript `Map`
as an association list in insertion order, thrown exceptions as
`Except String`, and `Promise` results as plain values: all the code
involved is sequential `async/await` with no interleaving relevant to the
properties below.
-/

namespace DigiPratibha

/-! ## Association-list model of the JavaScript `Map` and of `localStorage`

`Map.set` overwrites in place (keeping insertion order) when the key is
present and appends otherwise; `Map.delete` removes the key;
`Map.get` returns the value of the (unique) matching key. -/

/-- `Map.get` / `localStorage.getItem`: first value bound to `k`. -/
def lookupKey {β : Type} (k : String) : List (String × β) → Option β
  | [] => none
  | (k', v) :: rest => if k' = k then some v else lookupKey k rest

/-- `Map.set` / `localStorage.setItem`: overwrite in place if present, else append. -/
def mapSet {β : Type} (m : List (String × β)) (k : String) (v : β) : List (String × β) :=
  if m.any (fun p => p.1 = k) then
    m.map (fun p => if p.1 = k then (k, v) else p)
  else
    m ++ [(k, v)]

/-- `Map.delete` / `localStorage.removeItem`: remove every pair bound to `k`
(at most one when keys are unique, as the JS `Map` guarantees). -/
def deleteKey {β : Type} (m : List (String × β)) (k : String) : List (String × β) :=
  m.filter (fun p => p.1 ≠ k)

/-! ## JavaScript string predicates used by the cache -/

/-- `charsPrefixOf pat l` models `String.prototype.startsWith` on code points. -/
def charsPrefixOf : List Char → List Char → Bool
  | [], _ => true
  | _ :: _, [] => false
  | a :: pat, b :: l => a = b && charsPrefixOf pat l

/-- `charsInfixOf pat l`: `pat` occurs contiguously in `l`. -/
def charsInfixOf (pat : List Char) : List Char → Bool
  | [] => charsPrefixOf pat []
  | b :: l => charsPrefixOf pat (b :: l) || charsInfixOf pat l

/-- `s.includes(pattern)` of JavaScript: substring containment. -/
def strIncludes (s pattern : String) : Bool :=
  charsInfixOf pattern.data s.data

/-- `s.startsWith(pattern)` of JavaScript. -/
def strStartsWith (s pattern : String) : Bool :=
  charsPrefixOf pattern.data s.data

/-! ## The uniform response envelope (`APIResponse`, src/unnamed/part_005 lines 8-19) -/

/-- `pagination` block of `APIResponse`. -/
structure Pagination where
  page : Nat
  limit : Nat
  total : Nat
  hasMore : Bool
deriving DecidableEq, Repr

/-- `APIResponse<T>`: `{ success: boolean, data?, error?, message?, pagination? }`. -/
structure APIResponse (α : Type) where
  success : Bool
  data : Option α := none
  error : Option String := none
  message : Option String := none
  pagination : Option Pagination := none
deriving DecidableEq, Repr

/-! ## The TTL cache (src/unnamed/part_005 lines 33, 634-665)

`cache = Map<string, { data, timestamp, ttl }>`. -/

/-- One cache entry: `{ data, timestamp, ttl }`. -/
structure CacheEntry (α : Type) where
  data : α
  timestamp : Int
  ttl : Int
deriving DecidableEq, Repr

/-- The in-memory cache, in `Map` insertion order. -/
def Cache (α : Type) : Type := List (String × CacheEntry α)

/-- `getFromCache` (lines 634-644): absent if no entry; if
`Date.now() - cached.timestamp > cached.ttl` the entry is deleted and
`null` returned; otherwise the stored data is returned.  Returns the
value read together with the cache after the lazy eviction. -/
def getFromCache {α : Type} (c : Cache α) (key : String) (now : Int) :
    Option α × Cache α :=
  match lookupKey key c with
  | none => (none, c)
  | some cached =>
      if now - cached.timestamp > cached.ttl then
        (none, deleteKey c key)
      else
        (some cached.data, c)

/-- `setCache` (lines 646-652): store `{ data, timestamp := Date.now(), ttl }`. -/
def setCache {α : Type} (c : Cache α) (key : String) (data : α) (ttl : Int)
    (now : Int) : Cache α :=
  mapSet c key { data := data, timestamp := now, ttl := ttl }

/-- `clearCache` (lines 654-665): with no pattern, clear everything; with a
pattern, delete every key with `key.includes(pattern)`. -/
def clearCache {α : Type} (c : Cache α) (pattern : Option String) : Cache α :=
  match pattern with
  | none => []
  | some p => c.filter (fun e => !(strIncludes e.1 p))

/-! ## The retry executor (`executeWithRetry`, src/unnamed/part_005 lines 170-198)

An attempt is modelled as `Except String (APIResponse α)`: `.error msg` is a
thrown exception (caught by the `catch` branch, which builds
`{ success: false, error: error.message }`), `.ok r` a returned envelope. -/

/-- The envelope an attempt contributes to the loop: the returned envelope,
or the `catch`-branch envelope for a thrown exception. -/
def attemptResult {α : Type} (out : Except String (APIResponse α)) : APIResponse α :=
  match out with
  | .ok r => r
  | .error msg => { success := false, error := some msg }

/-- The backoff before retrying after failed attempt `attempt`:
`Math.min(1000 * Math.pow(2, attempt - 1), 10000)` (line 192). -/
def backoffDelay (attempt : Nat) : Nat :=
  min (1000 * 2 ^ (attempt - 1)) 10000

/-- The `for (let attempt = 1; attempt <= maxRetries; attempt++)` loop of
`executeWithRetry`, over the list of remaining attempt indices.  Returns the
final envelope, the number of invocations of the operation, and the list of
backoff delays slept between attempts. -/
def retryLoop {α : Type} (op : Nat → Except String (APIResponse α)) :
    List Nat → APIResponse α → APIResponse α × Nat × List Nat
  | [], lastError => (lastError, 0, [])
  | [a], _ =>
      -- last attempt: success returns the result, failure becomes `lastError`,
      -- and the loop then ends returning that same envelope; no backoff sleep.
      (attemptResult (op a), 1, [])
  | a :: b :: rest, _ =>
      let r := attemptResult (op a)
      if r.success then (r, 1, [])
      else
        let next := retryLoop op (b :: rest) r
        (next.1, next.2.1 + 1, backoffDelay a :: next.2.2)

/-- `executeWithRetry(operation, maxRetries)`: attempts `1..maxRetries`.
The source leaves `lastError` undefined when `maxRetries < 1`; `request`
always passes `config.retries || 3 ≥ 1`, and every theorem below assumes
`1 ≤ maxRetries`, so the initial envelope is never returned. -/
def executeWithRetry {α : Type} (op : Nat → Except String (APIResponse α))
    (maxRetries : Nat) : APIResponse α × Nat × List Nat :=
  retryLoop op (List.range' 1 maxRetries) { success := false }

/-! ## `performRequest` (src/unnamed/part_005 lines 109-168)

One attempt of the HTTP request.  The outcome of the `fetch` + `json()`
block is modelled by `FetchOutcome`: the abort fired by the per-attempt
timeout (`error.name === 'AbortError'`), any other thrown error
(`error.message`, possibly absent), or a parsed response with its `ok`
flag, status, statusText and JSON body.  The body's optional `error`,
`message` and `pagination` fields are explicit; the write-through
`setCache` of successful GETs is covered by `setCache` above. -/

/-- The JSON body of a response together with its conventional fields. -/
structure HttpBody (α : Type) where
  payload : α
  errorField : Option String
  messageField : Option String
  paginationField : Option Pagination
deriving DecidableEq, Repr

/-- The outcome of one `fetch` attempt, as observed by `performRequest`. -/
inductive FetchOutcome (α : Type) : Type
  | abortError : FetchOutcome α
  | thrown (msg : Option String) : FetchOutcome α
  | response (ok : Bool) (status : Nat) (statusText : String)
      (body : HttpBody α) : FetchOutcome α
deriving DecidableEq, Repr

/-- `performRequest` as a function of the fetch outcome: every branch,
including the `catch` branches, returns an `APIResponse` envelope --
nothing escapes as an exception. -/
def performRequest {α : Type} (outcome : FetchOutcome α) :
    APIResponse (HttpBody α) :=
  match outcome with
  | .abortError =>
      { success := false
        error := some "Request timeout - please check your connection" }
  | .thrown msg =>
      { success := false
        error := some (msg.getD "Network error occurred") }
  | .response ok status statusText body =>
      if ok then
        { success := true
          data := some body
          message := body.messageField
          pagination := body.paginationField }
      else
        { success := false
          error := some (body.errorField.getD
            ("HTTP " ++ toString status ++ ": " ++ statusText))
          data := some body }

/-! ## The orchestrator (src/lib/backend-orchestrator.ts)

### Per-service health aggregation (`updateHealthStatus`, lines 212-234) -/

/-- The health of one subsystem. -/
inductive ServiceHealth : Type
  | healthy
  | degraded
  | down
deriving DecidableEq, Repr

/-- `BackendHealth.services`: the six subsystem health fields. -/
structure ServicesHealth where
  api : ServiceHealth
  auth : ServiceHealth
  database : ServiceHealth
  websocket : ServiceHealth
  supabase : ServiceHealth
  ai : ServiceHealth
deriving DecidableEq, Repr

/-- `Object.values(this.healthStatus.services)`. -/
def servicesList (s : ServicesHealth) : List ServiceHealth :=
  [s.api, s.auth, s.database, s.websocket, s.supabase, s.ai]

/-- `services.filter(s => s === 'healthy').length`. -/
def healthyCount (s : ServicesHealth) : Nat :=
  (servicesList s).countP (fun x => x = ServiceHealth.healthy)

/-- The overall health computed by `updateHealthStatus`.  The source
compares `healthyCount >= totalServices * 0.7` in double precision; with
`totalServices = 6` the product is about `4.2`, strictly between the
integers 4 and 5 under either rounding, so the exact-rational comparison
`10 * healthyCount ≥ 7 * totalServices` decides identically on every
integer `healthyCount`. -/
def updateHealthStatus (s : ServicesHealth) : ServiceHealth :=
  let totalServices := (servicesList s).length
  if healthyCount s = totalServices then .healthy
  else if 10 * healthyCount s ≥ 7 * totalServices then .degraded
  else .down

/-! ### The dispatch table (`executeOperation` and the per-service
`execute*Operation` switches, lines 237-403) -/

/-- The methods of the `auth` switch (lines 312-329). -/
def authMethods : List String :=
  ["login", "register", "logout", "refreshToken", "getCurrentUser", "isAuthenticated"]

/-- The methods of the `api` switch (lines 332-353). -/
def apiMethods : List String :=
  ["getPortfolio", "updatePortfolio", "createProject", "updateProject",
   "deleteProject", "addSkill", "uploadFile", "search"]

/-- The methods of the `database` switch (lines 356-369). -/
def databaseMethods : List String :=
  ["query", "insert", "update", "delete"]

/-- The methods of the `websocket` switch (lines 372-387). -/
def websocketMethods : List String :=
  ["send", "subscribe", "unsubscribe", "joinRoom", "leaveRoom"]

/-- The methods of the `ai` switch (lines 390-403). -/
def aiMethods : List String :=
  ["analyzePortfolio", "getChatResponse", "generateRecommendations",
   "getSkillRecommendations"]

/-- The routing of `executeOperation`'s `switch (service)` composed with the
per-service `switch (method)`.  `env service method` is the outcome of the
delegated backend call (`authBackend.login(params)`, `apiBackend.getPortfolio(...)`,
...), abstracted as `Except`: `.error` is a rejected promise.  Unknown
services and methods throw the source's literal messages. -/
def dispatchService (env : String → String → Except String String)
    (service method : String) : Except String String :=
  match service with
  | "auth" =>
      if authMethods.contains method then env service method
      else .error ("Unknown auth method: " ++ method)
  | "api" =>
      if apiMethods.contains method then env service method
      else .error ("Unknown API method: " ++ method)
  | "database" =>
      if databaseMethods.contains method then env service method
      else .error ("Unknown database method: " ++ method)
  | "websocket" =>
      if websocketMethods.contains method then env service method
      else .error ("Unknown WebSocket method: " ++ method)
  | "ai" =>
      if aiMethods.contains method then env service method
      else .error ("Unknown AI method: " ++ method)
  | _ => .error ("Unknown service: " ++ service)

/-- Whether `(service, method)` reaches a delegated backend call rather
than one of the `default:` throws. -/
def knownPair (service method : String) : Bool :=
  match service with
  | "auth" => authMethods.contains method
  | "api" => apiMethods.contains method
  | "database" => databaseMethods.contains method
  | "websocket" => websocketMethods.contains method
  | "ai" => aiMethods.contains method
  | _ => false

/-! ### Telemetry records (`BackendOperation`, `executeOperation`) -/

/-- `BackendOperation.status`. -/
inductive OpStatus : Type
  | pending
  | success
  | error
deriving DecidableEq, Repr

/-- A telemetry record (lines 41-51); `timestamp`/`params` are not involved
in any claim and the `id` is the map key. -/
structure BackendOperation where
  id : String
  service : String
  method : String
  status : OpStatus
  result : Option String := none
  error : Option String := none
  duration : Option Nat := none
deriving DecidableEq, Repr

/-- `this.metrics`. -/
structure Metrics where
  totalRequests : Nat
  totalResponseTime : Nat
  errors : Nat
deriving DecidableEq, Repr

/-- The orchestrator's mutable state touched by `executeOperation`. -/
structure OrchState where
  operations : List (String × BackendOperation)
  metrics : Metrics
deriving DecidableEq, Repr

/-- The record created at dispatch time (lines 245-252). -/
def pendingRecord (opId service method : String) : BackendOperation :=
  { id := opId, service := service, method := method, status := .pending }

/-- The `finally` block (lines 302-308): if more than 100 records are held,
delete `Array.from(this.operations.keys())[0]`, the oldest key. -/
def evictOldest (ops : List (String × BackendOperation)) :
    List (String × BackendOperation) :=
  if ops.length > 100 then
    match ops with
    | [] => ops
    | p :: _ => deleteKey ops p.1
  else ops

/-- `executeOperation(service, method, params)` (lines 237-309): create a
`pending` record keyed by the generated `opId`, count the request, dispatch
through the service table, finalize the record to `success`/`error` with the
measured `duration`, update the metrics, evict the oldest record past the
100-record bound, and return (or rethrow) the outcome.  `opId` and
`duration` stand for the generated id and the measured wall time. -/
def executeOperation (st : OrchState) (env : String → String → Except String String)
    (service method opId : String) (duration : Nat) :
    Except String String × OrchState :=
  let ops1 := mapSet st.operations opId (pendingRecord opId service method)
  let m1 : Metrics := { st.metrics with totalRequests := st.metrics.totalRequests + 1 }
  match dispatchService env service method with
  | .ok r =>
      let fin := { pendingRecord opId service method with
        status := OpStatus.success, result := some r, duration := some duration }
      let m2 : Metrics := { m1 with totalResponseTime := m1.totalResponseTime + duration }
      (.ok r, { operations := evictOldest (mapSet ops1 opId fin), metrics := m2 })
  | .error e =>
      let fin := { pendingRecord opId service method with
        status := OpStatus.error, error := some e, duration := some duration }
      let m2 : Metrics := { m1 with
        errors := m1.errors + 1
        totalResponseTime := m1.totalResponseTime + duration }
      (.error e, { operations := evictOldest (mapSet ops1 opId fin), metrics := m2 })

/-! ## The connection monitor probe state machine -/

/-- `ConnectionState.status`. -/
inductive ConnStatus : Type
  | online
  | offline
  | reconnecting
  | unstable
deriving DecidableEq, Repr

/-- The part of `ConnectionState` the transition claims are about. -/
structure ConnState where
  status : ConnStatus
  consecutiveFailures : Nat
deriving DecidableEq, Repr

/-- The events driving the state machine: a successful probe, a failed
probe, and the start of a (manual or scheduled) reconnect attempt. -/
inductive ProbeEvent : Type
  | probeSuccess
  | probeFailure
  | reconnectBegin
deriving DecidableEq, Repr

/-- The consecutive-failure threshold `N = 3`. -/
def failureThreshold : Nat := 3

/-- Modelled from the spec: the connection monitor implementation
(`src/lib/connection-monitor`, imported by
`src/components/ConnectionIndicator.tsx`) is not present under `src/`;
its transition function is taken from spec §4.3, transition by transition:
`online → unstable` on a probe failure after being healthy; `unstable →
offline` once `consecutiveFailures` reaches `N = 3`; `offline →
reconnecting` when a reconnect attempt begins; `reconnecting → online` on
probe success, resetting `consecutiveFailures` to 0; `reconnecting →
offline` on probe failure, incrementing `consecutiveFailures`; `online →
online` on a normal successful probe.  A probe failure always increments
`consecutiveFailures`; events with no listed transition leave the state
unchanged. -/
def connStep (s : ConnState) (e : ProbeEvent) : ConnState :=
  match e with
  | .probeSuccess =>
      match s.status with
      | .online => s
      | .reconnecting => { status := .online, consecutiveFailures := 0 }
      | _ => s
  | .probeFailure =>
      let f := s.consecutiveFailures + 1
      match s.status with
      | .online => { status := .unstable, consecutiveFailures := f }
      | .unstable =>
          if f ≥ failureThreshold then { status := .offline, consecutiveFailures := f }
          else { status := .unstable, consecutiveFailures := f }
      | .reconnecting => { status := .offline, consecutiveFailures := f }
      | .offline => { status := .offline, consecutiveFailures := f }
  | .reconnectBegin =>
      match s.status with
      | .offline => { s with status := .reconnecting }
      | _ => s

/-! ## `logout` (src/unnamed/part_005 lines 260-277)

The client-local state it mutates: `localStorage` and the response cache.
`remote` is the settled outcome of `this.request('POST', '/auth/logout')`;
`.error` models the promise rejecting (the `catch` branch). -/

/-- The local state cleared by `logout`. -/
structure ClientLocalState (α : Type) where
  localStorage : List (String × String)
  cache : Cache α

/-- `logout()`: in both the normal and the `catch` branch the two auth keys
are removed and the cache fully cleared; the `catch` branch resolves with
`{ success: true }`. -/
def logout {α : Type} (st : ClientLocalState α)
    (remote : Except String (APIResponse Unit)) :
    APIResponse Unit × ClientLocalState α :=
  let cleared : ClientLocalState α :=
    { localStorage :=
        deleteKey (deleteKey st.localStorage "auth_token") "digipratibha_user"
      cache := clearCache st.cache none }
  match remote with
  | .ok response => (response, cleared)
  | .error _ => ({ success := true }, cleared)

/-! ## Helper lemmas on the association-list `Map` model -/

theorem lookupKey_append_of_not_mem {β : Type} {m : List (String × β)} {k : String}
    (l : List (String × β)) (h : k ∉ m.map Prod.fst) :
    lookupKey k (m ++ l) = lookupKey k l := by
  induction m with
  | nil => rfl
  | cons p rest ih =>
      have hp : p.1 ≠ k := fun he => h (by simp [he.symm])
      have hrest : k ∉ rest.map Prod.fst := fun hm => h (by simp [hm])
      simp [lookupKey, hp, ih hrest]

theorem lookupKey_of_not_mem {β : Type} {m : List (String × β)} {k : String}
    (h : k ∉ m.map Prod.fst) : lookupKey k m = none := by
  have := lookupKey_append_of_not_mem (m := m) (k := k) [] h
  simpa using this

theorem mapSet_of_not_mem {β : Type} {m : List (String × β)} {k : String} (v : β)
    (h : k ∉ m.map Prod.fst) : mapSet m k v = m ++ [(k, v)] := by
  have hany : m.any (fun p => p.1 = k) = false := by
    simp only [List.any_eq_false, decide_eq_true_eq]
    intro p hp he
    exact h (by simpa [he] using List.mem_map_of_mem Prod.fst hp)
  simp [mapSet, hany]

theorem overwriteMap_of_not_mem {β : Type} {m : List (String × β)} {k : String} (v : β)
    (h : k ∉ m.map Prod.fst) :
    m.map (fun p => if p.1 = k then (k, v) else p) = m := by
  induction m with
  | nil => rfl
  | cons p rest ih =>
      have hp : p.1 ≠ k := fun he => h (by simp [he.symm])
      have hrest : k ∉ rest.map Prod.fst := fun hm => h (by simp [hm])
      simp [hp, ih hrest]

theorem lookupKey_cons {β : Type} (p : String × β) (rest : List (String × β)) (k : String) :
    lookupKey k (p :: rest) = if p.1 = k then some p.2 else lookupKey k rest := rfl

theorem deleteKey_cons {β : Type} (p : String × β) (rest : List (String × β)) (k : String) :
    deleteKey (p :: rest) k =
      if p.1 = k then deleteKey rest k else p :: deleteKey rest k := by
  by_cases hp : p.1 = k <;> simp [deleteKey, List.filter_cons, hp]

theorem lookupKey_overwriteMap {β : Type} {m : List (String × β)} {k : String} (v : β)
    (h : m.any (fun p => p.1 = k) = true) :
    lookupKey k (m.map (fun p => if p.1 = k then (k, v) else p)) = some v := by
  induction m with
  | nil => cases h
  | cons p rest ih =>
      rw [List.map_cons]
      by_cases hp : p.1 = k
      · rw [if_pos hp, lookupKey_cons]
        simp
      · have hr : rest.any (fun q => q.1 = k) = true := by
          simpa [List.any_cons, hp] using h
        rw [if_neg hp, lookupKey_cons, if_neg hp]
        exact ih hr

theorem mapSet_append_overwrite {β : Type} {m : List (String × β)} {k : String} (v w : β)
    (h : k ∉ m.map Prod.fst) :
    mapSet (m ++ [(k, v)]) k w = m ++ [(k, w)] := by
  have hany : (m ++ [(k, v)]).any (fun p => p.1 = k) = true := by
    simp [List.any_append]
  simp only [mapSet, hany, if_pos, List.map_append]
  rw [overwriteMap_of_not_mem w h]
  simp

theorem lookupKey_mapSet_self {β : Type} (m : List (String × β)) (k : String) (v : β) :
    lookupKey k (mapSet m k v) = some v := by
  by_cases hany : m.any (fun p => p.1 = k) = true
  · simp only [mapSet, hany, if_pos]
    exact lookupKey_overwriteMap v hany
  · have hnm : k ∉ m.map Prod.fst := by
      intro hm
      apply hany
      simp only [List.any_eq_true, decide_eq_true_eq]
      obtain ⟨p, hp, he⟩ := List.mem_map.mp hm
      exact ⟨p, hp, he⟩
    rw [mapSet_of_not_mem v hnm, lookupKey_append_of_not_mem _ hnm]
    simp [lookupKey]

theorem lookupKey_deleteKey_self {β : Type} (m : List (String × β)) (k : String) :
    lookupKey k (deleteKey m k) = none := by
  induction m with
  | nil => rfl
  | cons p rest ih =>
      rw [deleteKey_cons]
      by_cases hp : p.1 = k
      · rw [if_pos hp]
        exact ih
      · rw [if_neg hp, lookupKey_cons, if_neg hp]
        exact ih

theorem lookupKey_deleteKey_ne {β : Type} (m : List (String × β)) {k k' : String}
    (h : k ≠ k') : lookupKey k (deleteKey m k') = lookupKey k m := by
  induction m with
  | nil => rfl
  | cons p rest ih =>
      rw [deleteKey_cons]
      by_cases hp : p.1 = k'
      · rw [if_pos hp, ih, lookupKey_cons, if_neg (by rw [hp]; exact Ne.symm h)]
      · rw [if_neg hp, lookupKey_cons, lookupKey_cons, ih]

theorem deleteKey_append {β : Type} (m l : List (String × β)) (k : String) :
    deleteKey (m ++ l) k = deleteKey m k ++ deleteKey l k :=
  List.filter_append m l

theorem deleteKey_of_not_mem {β : Type} {m : List (String × β)} {k : String}
    (h : k ∉ m.map Prod.fst) : deleteKey m k = m := by
  apply List.filter_eq_self.mpr
  intro p hp
  have : p.1 ≠ k := fun he => h (by simpa [he] using List.mem_map_of_mem Prod.fst hp)
  simpa using this

/-! ## Helper lemmas on the retry loop -/

theorem retryLoop_all_fail {α : Type} (op : Nat → Except String (APIResponse α)) :
    ∀ (l : List Nat) (a : Nat) (le : APIResponse α),
      (∀ x ∈ l ++ [a], (attemptResult (op x)).success = false) →
      retryLoop op (l ++ [a]) le =
        (attemptResult (op a), l.length + 1, l.map backoffDelay)
  | [], a, le, _ => by simp [retryLoop]
  | b :: l, a, le, h => by
      have hb : (attemptResult (op b)).success = false := h b (by simp)
      have hrec := retryLoop_all_fail op l a (attemptResult (op b))
        (fun x hx => h x (by simp only [List.cons_append, List.mem_cons]; exact Or.inr hx))
      obtain ⟨c, rest, hcr⟩ : ∃ c rest, l ++ [a] = c :: rest := by
        cases l with
        | nil => exact ⟨a, [], rfl⟩
        | cons x xs => exact ⟨x, xs ++ [a], rfl⟩
      rw [List.cons_append, hcr, retryLoop, ← hcr, hb]
      simp only [Bool.false_eq_true, if_false, hrec]
      simp [Nat.add_comm, Nat.add_assoc]

theorem retryLoop_result_mem {α : Type} (op : Nat → Except String (APIResponse α)) :
    ∀ (l : List Nat) (le : APIResponse α), l ≠ [] →
      ∃ a ∈ l, (retryLoop op l le).1 = attemptResult (op a)
  | [], _, h => absurd rfl h
  | [a], _, _ => ⟨a, by simp, by simp [retryLoop]⟩
  | a :: b :: rest, le, _ => by
      by_cases hs : (attemptResult (op a)).success = true
      · exact ⟨a, by simp, by simp [retryLoop, hs]⟩
      · obtain ⟨x, hx, hres⟩ :=
          retryLoop_result_mem op (b :: rest) (attemptResult (op a)) (by simp)
        refine ⟨x, by simp only [List.mem_cons] at hx ⊢; exact Or.inr hx, ?_⟩
        simp only [retryLoop, hs, if_false, Bool.false_eq_true]
        exact hres

/-! ## C1: no non-retryable short-circuit in the retry executor -/

/-- C1 counterexample: the claim states that a first-attempt authorization
failure results in exactly 1 invocation with no retries.  On the code, an
operation that always returns a (non-transient) authorization failure
envelope is invoked 3 times under the default `maxRetries = 3`:
`executeWithRetry` retries every unsuccessful envelope without inspecting
the kind of failure. -/
theorem auth_failure_retried_counterexample :
    (executeWithRetry (fun _ => Except.ok
        ({ success := false, error := some "Authorization required" } : APIResponse Unit))
      3).2.1 = 3 ∧
    (executeWithRetry (fun _ => Except.ok
        ({ success := false, error := some "Authorization required" } : APIResponse Unit))
      3).2.1 ≠ 1 := by
  constructor
  · rfl
  · decide

/-- C1 (amended): `executeWithRetry` does not distinguish transient from
non-transient failures: any operation all of whose attempts fail — an
authorization or validation failure included — is invoked exactly
`maxRetries` times, with the exponential backoff slept between consecutive
attempts, and the final attempt's failure envelope is what propagates
(after the retries, not immediately). -/
theorem executeWithRetry_all_failures_retried {α : Type}
    (op : Nat → Except String (APIResponse α)) (maxRetries : Nat)
    (hmr : 1 ≤ maxRetries)
    (hfail : ∀ a, 1 ≤ a → a ≤ maxRetries → (attemptResult (op a)).success = false) :
    executeWithRetry op maxRetries =
      (attemptResult (op maxRetries), maxRetries,
        (List.range' 1 (maxRetries - 1)).map backoffDelay) := by
  obtain ⟨n, rfl⟩ : ∃ n, maxRetries = n + 1 :=
    ⟨maxRetries - 1, (Nat.succ_pred_eq_of_pos hmr).symm⟩
  have hsplit : List.range' 1 (n + 1) = List.range' 1 n ++ [1 + n] := by
    simpa using @List.range'_concat 1 1 n
  rw [executeWithRetry, hsplit, retryLoop_all_fail op (List.range' 1 n) (1 + n) _ ?hall]
  · simp [List.length_range', Nat.add_comm 1 n]
  case hall =>
    intro x hx
    rw [← hsplit] at hx
    obtain ⟨h1, h2⟩ := List.mem_range'_1.mp hx
    exact hfail x h1 (by omega)

/-- C1 (amended) witness: a concrete always-failing operation under
`maxRetries = 3` is invoked 3 times with backoffs 1000ms and 2000ms and its
failure envelope is returned. -/
theorem executeWithRetry_all_failures_retried_witness :
    executeWithRetry (fun _ => Except.ok
        ({ success := false, error := some "Validation failed" } : APIResponse Unit)) 3 =
      ({ success := false, error := some "Validation failed" }, 3, [1000, 2000]) := by
  rw [executeWithRetry_all_failures_retried
      (fun _ => Except.ok
        ({ success := false, error := some "Validation failed" } : APIResponse Unit))
      3 (by decide) (fun a _ _ => rfl)]
  rfl

/-! ## C2: retry count and exponential backoff on eventual success -/

/-- C2: an operation failing on attempts 1 and 2 and succeeding on attempt 3,
run with `maxRetries = 3`, returns the successful envelope after exactly 3
invocations; the two inter-attempt delays are
`min(1000 * 2^(attempt-1), 10000)`, i.e. 1000ms then 2000ms, and are
non-decreasing. -/
theorem retry_backoff_two_failures_then_success {α : Type}
    (op : Nat → Except String (APIResponse α))
    (h1 : (attemptResult (op 1)).success = false)
    (h2 : (attemptResult (op 2)).success = false)
    (h3 : (attemptResult (op 3)).success = true) :
    executeWithRetry op 3 = (attemptResult (op 3), 3, [backoffDelay 1, backoffDelay 2]) ∧
    (executeWithRetry op 3).1.success = true ∧
    backoffDelay 1 = min (1000 * 2 ^ (1 - 1)) 10000 ∧
    backoffDelay 2 = min (1000 * 2 ^ (2 - 1)) 10000 ∧
    backoffDelay 1 ≤ backoffDelay 2 := by
  have hmain :
      executeWithRetry op 3 = (attemptResult (op 3), 3, [backoffDelay 1, backoffDelay 2]) := by
    have hr : List.range' 1 3 = [1, 2, 3] := rfl
    rw [executeWithRetry, hr, retryLoop, h1]
    simp only [Bool.false_eq_true, if_false]
    rw [retryLoop, h2]
    simp only [Bool.false_eq_true, if_false]
    rw [retryLoop]
  refine ⟨hmain, ?_, rfl, rfl, by decide⟩
  rw [hmain]
  exact h3

/-- C2 witness: a concrete operation succeeding on its 3rd attempt. -/
theorem retry_backoff_two_failures_then_success_witness :
    executeWithRetry
        (fun a => Except.ok ({ success := decide (3 ≤ a) } : APIResponse Unit)) 3 =
      ({ success := true }, 3, [1000, 2000]) := by
  rw [(retry_backoff_two_failures_then_success
      (fun a => Except.ok ({ success := decide (3 ≤ a) } : APIResponse Unit))
      rfl rfl rfl).1]
  rfl

/-! ## C3: the TTL boundary of the cache -/

/-- C3 counterexample: the claim states that an entry with `ttl = 1000` is
absent at exactly 1000ms after storing.  On the code, expiry tests
`now - timestamp > ttl` strictly, so at `now - storedAt = 1000 = ttl` the
stored value is still returned. -/
theorem cache_boundary_counterexample :
    (getFromCache [("k", ({ data := 0, timestamp := 0, ttl := 1000 } : CacheEntry Nat))]
      "k" 1000).1 = some 0 := by
  rfl

/-- C3 (amended): a cache entry stored at time `t` with time-to-live `ttl`
is returned by `get` at time `now` exactly when `now - t ≤ ttl` (closed
boundary), and is treated as absent — returning `none` and lazily evicting
the entry — exactly when `now - t > ttl`; in particular with `ttl = 1000`
the entry is valid at 999ms and at exactly 1000ms after storing, and
absent from 1001ms on. -/
theorem cache_ttl_closed_boundary {α : Type} (c : Cache α) (key : String) (v : α)
    (ttl t now : Int) :
    (now - t ≤ ttl →
      getFromCache (setCache c key v ttl t) key now =
        (some v, setCache c key v ttl t)) ∧
    (now - t > ttl →
      getFromCache (setCache c key v ttl t) key now =
        (none, deleteKey (setCache c key v ttl t) key)) := by
  have hl : lookupKey key (setCache c key v ttl t) =
      some { data := v, timestamp := t, ttl := ttl } :=
    lookupKey_mapSet_self c key _
  constructor
  · intro h
    simp only [getFromCache, hl]
    rw [if_neg (by simpa using h)]
  · intro h
    simp only [getFromCache, hl]
    rw [if_pos (by simpa using h)]

/-- C3 (amended) witness: the concrete `ttl = 1000` boundary on a singleton
cache — the value is present at 999ms and 1000ms and absent at 1001ms. -/
theorem cache_ttl_closed_boundary_witness :
    (getFromCache (setCache ([] : Cache Nat) "k" 7 1000 0) "k" 999).1 = some 7 ∧
    (getFromCache (setCache ([] : Cache Nat) "k" 7 1000 0) "k" 1000).1 = some 7 ∧
    (getFromCache (setCache ([] : Cache Nat) "k" 7 1000 0) "k" 1001).1 = none := by
  refine ⟨?_, ?_, ?_⟩
  · rw [(cache_ttl_closed_boundary ([] : Cache Nat) "k" 7 1000 0 999).1 (by decide)]
  · rw [(cache_ttl_closed_boundary ([] : Cache Nat) "k" 7 1000 0 1000).1 (by decide)]
  · rw [(cache_ttl_closed_boundary ([] : Cache Nat) "k" 7 1000 0 1001).2 (by decide)]

/-! ## C4: cache invalidation matches by substring, not by prefix -/

/-- C4 counterexample: the claim states that `clearCache` with a pattern
removes exactly the entries whose key starts with the pattern.  On the
code the test is `key.includes(pattern)`: the key `"xportfolio:42"`, which
contains but does not start with `"portfolio:"`, is removed as well. -/
theorem clearCache_prefix_counterexample :
    lookupKey "xportfolio:42"
        (clearCache [("xportfolio:42",
            ({ data := 0, timestamp := 0, ttl := 1000 } : CacheEntry Nat))]
          (some "portfolio:")) = none ∧
    strStartsWith "xportfolio:42" "portfolio:" = false := by
  constructor
  · rfl
  · decide

/-- C4 (amended): `clearCache` with a pattern removes exactly those entries
whose key contains the pattern as a substring (which includes every key
that starts with it): after `clearCache (some p)`, `lookupKey k` is `none`
when `k.includes(p)` and is unchanged otherwise; in particular
`"portfolio:42"` (which starts with, hence contains, `"portfolio:"`) is
removed and `"user:42"` is unaffected. -/
theorem clearCache_removes_substring_matches {α : Type} (c : Cache α) (p k : String) :
    (lookupKey k (clearCache c (some p)) =
      if strIncludes k p then none else lookupKey k c) ∧
    strIncludes "portfolio:42" "portfolio:" = true ∧
    strStartsWith "portfolio:42" "portfolio:" = true ∧
    strIncludes "user:42" "portfolio:" = false := by
  refine ⟨?_, by decide, by decide, by decide⟩
  induction c with
  | nil => by_cases h : strIncludes k p = true <;> simp [clearCache, lookupKey, h]
  | cons e rest ih =>
      obtain ⟨k', v⟩ := e
      simp only [clearCache, List.filter_cons] at ih ⊢
      by_cases hin : strIncludes k' p = true
      · simp only [hin, Bool.not_true, Bool.false_eq_true, if_false]
        rw [ih, lookupKey_cons]
        by_cases hk : k' = k
        · subst hk
          simp [hin]
        · rw [if_neg hk]
      · rw [Bool.not_eq_true] at hin
        simp only [hin, Bool.not_false, if_true]
        rw [lookupKey_cons, lookupKey_cons]
        by_cases hk : k' = k
        · subst hk
          simp [hin, ih]
        · rw [if_neg hk, if_neg hk, ih]

/-! ## C5: the uniform result envelope -/

theorem performRequest_error_of_not_success {α : Type} (o : FetchOutcome α)
    (h : (performRequest o).success = false) :
    (performRequest o).error.isSome = true := by
  cases o with
  | abortError => rfl
  | thrown msg => rfl
  | response ok status statusText body =>
      cases ok with
      | true => simp [performRequest] at h
      | false => simp [performRequest]

/-- C5: `request` is `executeWithRetry` over `performRequest` attempts; both
are total functions into the `APIResponse` envelope, so no failure escapes
as an exception.  The returned envelope is the envelope of one of the
attempts' fetch outcomes, and whenever it reports `success: false` it
carries an `error` field; the three failure shapes — the per-attempt
timeout abort, a thrown network error, and a non-OK HTTP response — each
produce `success: false` with an `error` present. -/
theorem request_uniform_envelope {α : Type} (outcomes : Nat → FetchOutcome α)
    (n : Nat) (hn : 1 ≤ n) (msg : Option String) (status : Nat)
    (statusText : String) (body : HttpBody α) :
    (∃ a, 1 ≤ a ∧ a ≤ n ∧
      (executeWithRetry (fun k => Except.ok (performRequest (outcomes k))) n).1 =
        performRequest (outcomes a)) ∧
    ((executeWithRetry (fun k => Except.ok (performRequest (outcomes k))) n).1.success = false →
      (executeWithRetry (fun k => Except.ok (performRequest (outcomes k))) n).1.error.isSome = true) ∧
    (performRequest (FetchOutcome.abortError (α := α))).success = false ∧
    (performRequest (FetchOutcome.abortError (α := α))).error.isSome = true ∧
    (performRequest (FetchOutcome.thrown (α := α) msg)).success = false ∧
    (performRequest (FetchOutcome.thrown (α := α) msg)).error.isSome = true ∧
    (performRequest (FetchOutcome.response false status statusText body)).success = false ∧
    (performRequest (FetchOutcome.response false status statusText body)).error.isSome = true := by
  have hne : List.range' 1 n ≠ [] := by
    intro he
    have := List.length_range' 1 1 n
    rw [he] at this
    simp at this
    omega
  obtain ⟨a, ha, hres⟩ :=
    retryLoop_result_mem (fun k => Except.ok (performRequest (outcomes k)))
      (List.range' 1 n) { success := false } hne
  obtain ⟨ha1, ha2⟩ := List.mem_range'_1.mp ha
  have hmem : (executeWithRetry (fun k => Except.ok (performRequest (outcomes k))) n).1 =
      performRequest (outcomes a) := hres
  refine ⟨⟨a, ha1, by omega, hmem⟩, ?_, rfl, rfl, ?_, ?_, ?_, ?_⟩
  · intro hf
    rw [hmem] at hf ⊢
    exact performRequest_error_of_not_success _ hf
  · rfl
  · cases msg <;> rfl
  · simp [performRequest]
  · simp [performRequest]

/-- C5 witness: a request whose single attempt is aborted by the timeout
still resolves to an envelope with `success: false` and an error message. -/
theorem request_uniform_envelope_witness :
    (performRequest (FetchOutcome.abortError (α := Unit))).success = false ∧
    (performRequest (FetchOutcome.abortError (α := Unit))).error.isSome = true :=
  ⟨(request_uniform_envelope (fun _ => FetchOutcome.abortError) 1 (by decide) none 500
      "Internal Server Error" ⟨(), none, none, none⟩).2.2.1,
   (request_uniform_envelope (fun _ => FetchOutcome.abortError) 1 (by decide) none 500
      "Internal Server Error" ⟨(), none, none, none⟩).2.2.2.1⟩

/-! ## C6: aggregated overall health -/

/-- C6: for every assignment of per-service health values, the aggregated
overall health is `healthy` exactly when all 6 subsystems are healthy,
`degraded` exactly when not all are healthy but at least 70% are
(`healthyCount / 6 ≥ 0.7`, i.e. at least 5 of 6), and `down` otherwise. -/
theorem overall_health_aggregation (s : ServicesHealth) :
    ((servicesList s).length = 6) ∧
    (updateHealthStatus s = ServiceHealth.healthy ↔
      ∀ x ∈ servicesList s, x = ServiceHealth.healthy) ∧
    (updateHealthStatus s = ServiceHealth.degraded ↔
      ¬ (∀ x ∈ servicesList s, x = ServiceHealth.healthy) ∧
        10 * healthyCount s ≥ 7 * 6) ∧
    (updateHealthStatus s = ServiceHealth.down ↔ 10 * healthyCount s < 7 * 6) := by
  have hlen : (servicesList s).length = 6 := rfl
  have hall : healthyCount s = 6 ↔ ∀ x ∈ servicesList s, x = ServiceHealth.healthy := by
    rw [healthyCount, show (6 : Nat) = (servicesList s).length from hlen.symm,
      List.countP_eq_length]
    simp
  have hle : healthyCount s ≤ 6 := by
    have := List.countP_le_length (fun x => decide (x = ServiceHealth.healthy))
      (l := servicesList s)
    rw [hlen] at this
    exact this
  refine ⟨hlen, ?_, ?_, ?_⟩
  · rw [← hall]
    unfold updateHealthStatus
    rw [hlen]
    by_cases h6 : healthyCount s = 6
    · simp [h6]
    · by_cases h7 : 10 * healthyCount s ≥ 7 * 6
      · simp only [h6, if_false, ge_iff_le]
        rw [if_pos (by omega)]
        simp [h6]
      · simp only [h6, if_false, ge_iff_le]
        rw [if_neg (by omega)]
        simp [h6]
  · rw [← hall]
    unfold updateHealthStatus
    rw [hlen]
    by_cases h6 : healthyCount s = 6
    · simp [h6]
    · by_cases h7 : 10 * healthyCount s ≥ 7 * 6
      · simp only [h6, if_false, ge_iff_le]
        rw [if_pos (by omega)]
        simp [h6]
        omega
      · simp only [h6, if_false, ge_iff_le]
        rw [if_neg (by omega)]
        simp [h6]
        omega
  · unfold updateHealthStatus
    rw [hlen]
    by_cases h6 : healthyCount s = 6
    · simp [h6]
    · by_cases h7 : 10 * healthyCount s ≥ 7 * 6
      · simp only [h6, if_false, ge_iff_le]
        rw [if_pos (by omega)]
        simp
        omega
      · simp only [h6, if_false, ge_iff_le]
        rw [if_neg (by omega)]
        simp
        omega

/-! ## C7: the telemetry record store is a bounded buffer -/

theorem executeOperation_ops_shape (ops : List (String × BackendOperation))
    (opId : String) (pend fin : BackendOperation)
    (hfresh : opId ∉ ops.map Prod.fst) (hnodup : (ops.map Prod.fst).Nodup)
    (hbound : ops.length ≤ 100) :
    evictOldest (mapSet (mapSet ops opId pend) opId fin) =
      if ops.length = 100 then ops.tail ++ [(opId, fin)]
      else ops ++ [(opId, fin)] := by
  have h1 : mapSet ops opId pend = ops ++ [(opId, pend)] := mapSet_of_not_mem pend hfresh
  have h2 : mapSet (ops ++ [(opId, pend)]) opId fin = ops ++ [(opId, fin)] :=
    mapSet_append_overwrite pend fin hfresh
  rw [h1, h2, evictOldest.eq_def]
  by_cases hlen : ops.length = 100
  · rw [if_pos (by simp [List.length_append]; omega), if_pos hlen]
    cases ops with
    | nil => simp at hlen
    | cons q t =>
        have hnodup' : (q.1 :: t.map Prod.fst).Nodup := by simpa using hnodup
        have hq : q.1 ∉ t.map Prod.fst := (List.nodup_cons.mp hnodup').1
        have hqo : q.1 ≠ opId := by
          intro he
          exact hfresh (by simp [← he])
        simp only [List.cons_append]
        rw [deleteKey_cons, if_pos rfl, deleteKey_append, deleteKey_of_not_mem hq]
        simp [deleteKey, Ne.symm hqo]
  · rw [if_neg (by simp [List.length_append]; omega), if_neg hlen]

theorem record_store_after (ops : List (String × BackendOperation)) (opId : String)
    (pend fin : BackendOperation)
    (hfresh : opId ∉ ops.map Prod.fst) (hnodup : (ops.map Prod.fst).Nodup)
    (hbound : ops.length ≤ 100) :
    lookupKey opId (evictOldest (mapSet (mapSet ops opId pend) opId fin)) = some fin ∧
    (ops.length = 100 →
      evictOldest (mapSet (mapSet ops opId pend) opId fin) = ops.tail ++ [(opId, fin)]) ∧
    (evictOldest (mapSet (mapSet ops opId pend) opId fin)).length ≤ 100 := by
  rw [executeOperation_ops_shape ops opId pend fin hfresh hnodup hbound]
  by_cases hlen : ops.length = 100
  · rw [if_pos hlen]
    have htail : opId ∉ ops.tail.map Prod.fst := by
      intro hm
      obtain ⟨p, hp, he⟩ := List.mem_map.mp hm
      exact hfresh (by
        simpa [he] using List.mem_map_of_mem Prod.fst (List.mem_of_mem_tail hp))
    refine ⟨?_, fun _ => rfl, ?_⟩
    · rw [lookupKey_append_of_not_mem _ htail]
      simp [lookupKey]
    · have : ops.tail.length = 99 := by
        cases ops with
        | nil => simp at hlen
        | cons q t => simp at hlen ⊢; omega
      simp [List.length_append, this]
  · rw [if_neg hlen]
    refine ⟨?_, fun h => absurd h hlen, ?_⟩
    · rw [lookupKey_append_of_not_mem _ hfresh]
      simp [lookupKey]
    · simp [List.length_append]
      omega

/-- C7: every call to `executeOperation` creates a record with status
`pending` at dispatch time (keyed by the generated operation id), finalizes
it to `success` or `error` with the measured duration when the call
settles, and keeps the record store bounded: after the call at most 100
records are held, and when the bound would be exceeded (store already at
100) exactly the oldest record — the first key of the insertion-ordered
map — is evicted, leaving the remaining records plus the new one. -/
theorem operation_records_bounded (st : OrchState)
    (env : String → String → Except String String)
    (service method opId : String) (duration : Nat)
    (hfresh : opId ∉ st.operations.map Prod.fst)
    (hnodup : (st.operations.map Prod.fst).Nodup)
    (hbound : st.operations.length ≤ 100) :
    lookupKey opId (mapSet st.operations opId (pendingRecord opId service method)) =
      some (pendingRecord opId service method) ∧
    (pendingRecord opId service method).status = OpStatus.pending ∧
    (∃ rec : BackendOperation,
      lookupKey opId (executeOperation st env service method opId duration).2.operations =
        some rec ∧
      (rec.status = OpStatus.success ∨ rec.status = OpStatus.error) ∧
      rec.duration = some duration ∧
      (st.operations.length = 100 →
        (executeOperation st env service method opId duration).2.operations =
          st.operations.tail ++ [(opId, rec)])) ∧
    (executeOperation st env service method opId duration).2.operations.length ≤ 100 := by
  refine ⟨lookupKey_mapSet_self _ _ _, rfl, ?_⟩
  cases hd : dispatchService env service method with
  | ok r =>
      have hops : (executeOperation st env service method opId duration).2.operations =
          evictOldest (mapSet (mapSet st.operations opId (pendingRecord opId service method))
            opId { pendingRecord opId service method with
              status := OpStatus.success, result := some r, duration := some duration }) := by
        simp only [executeOperation, hd]
      obtain ⟨hl, he, hb⟩ := record_store_after st.operations opId
        (pendingRecord opId service method)
        { pendingRecord opId service method with
          status := OpStatus.success, result := some r, duration := some duration }
        hfresh hnodup hbound
      rw [hops]
      exact ⟨⟨_, hl, Or.inl rfl, rfl, he⟩, hb⟩
  | error e =>
      have hops : (executeOperation st env service method opId duration).2.operations =
          evictOldest (mapSet (mapSet st.operations opId (pendingRecord opId service method))
            opId { pendingRecord opId service method with
              status := OpStatus.error, error := some e, duration := some duration }) := by
        simp only [executeOperation, hd]
      obtain ⟨hl, he, hb⟩ := record_store_after st.operations opId
        (pendingRecord opId service method)
        { pendingRecord opId service method with
          status := OpStatus.error, error := some e, duration := some duration }
        hfresh hnodup hbound
      rw [hops]
      exact ⟨⟨_, hl, Or.inr rfl, rfl, he⟩, hb⟩

/-- C7 witness: a concrete call finalizes its record within the bound. -/
theorem operation_records_bounded_witness :
    (executeOperation ⟨[], ⟨0, 0, 0⟩⟩ (fun _ _ => Except.ok "user") "auth" "login"
      "op1" 5).2.operations.length ≤ 100 :=
  (operation_records_bounded ⟨[], ⟨0, 0, 0⟩⟩ (fun _ _ => Except.ok "user") "auth" "login"
    "op1" 5 (by simp) (by simp) (by simp)).2.2.2

/-! ## C8: failing fast on unknown service/method pairs -/

/-- C8 counterexample: the claim states that the error for an unknown
`(service, method)` pair names the allowed methods of the service, and
that `executeOperation` rejects only for unknown pairs.  On the code, an
unknown method of a known service produces
`"Unknown auth method: bogus"`, which does not mention any allowed
method (e.g. `"login"` does not occur in it); and `executeOperation` also
rethrows errors of the dispatched backend call for a perfectly known
pair (`auth`/`login` below). -/
theorem dispatch_error_counterexample :
    (executeOperation ⟨[], ⟨0, 0, 0⟩⟩ (fun _ _ => Except.ok "r") "auth" "bogus"
      "op1" 0).1 = Except.error "Unknown auth method: bogus" ∧
    strIncludes "Unknown auth method: bogus" "login" = false ∧
    (executeOperation ⟨[], ⟨0, 0, 0⟩⟩ (fun _ _ => Except.error "boom") "auth" "login"
      "op2" 0).1 = Except.error "boom" := by
  refine ⟨rfl, by decide, rfl⟩

/-- C8 (amended): `executeOperation` returns exactly the outcome of the
dispatch table: for a known `(service, method)` pair it is the delegated
backend call's outcome (so its errors are rethrown too); for an unknown
pair it fails fast with a descriptive error naming the unknown service or
the unknown method (as a suffix of the message), not the allowed
methods. -/
theorem dispatch_fail_fast (st : OrchState)
    (env : String → String → Except String String)
    (service method opId : String) (duration : Nat) :
    (executeOperation st env service method opId duration).1 =
      dispatchService env service method ∧
    (knownPair service method = true →
      dispatchService env service method = env service method) ∧
    (knownPair service method = false →
      ∃ pre : String,
        dispatchService env service method = Except.error (pre ++ service) ∨
        dispatchService env service method = Except.error (pre ++ method)) := by
  refine ⟨?_, ?_, ?_⟩
  · cases hd : dispatchService env service method <;> simp [executeOperation, hd]
  · intro hk
    unfold dispatchService
    unfold knownPair at hk
    split at hk <;> simp_all
  · intro hk
    unfold dispatchService
    unfold knownPair at hk
    split at hk
    · exact ⟨"Unknown auth method: ", by simp_all⟩
    · exact ⟨"Unknown API method: ", by simp_all⟩
    · exact ⟨"Unknown database method: ", by simp_all⟩
    · exact ⟨"Unknown WebSocket method: ", by simp_all⟩
    · exact ⟨"Unknown AI method: ", by simp_all⟩
    · exact ⟨"Unknown service: ", by simp_all⟩

/-- C8 (amended) witness: an unknown service fails fast with a message
naming it. -/
theorem dispatch_fail_fast_witness :
    ∃ pre : String,
      dispatchService (fun _ _ => Except.ok "r") "storage" "put" =
        Except.error (pre ++ "storage") ∨
      dispatchService (fun _ _ => Except.ok "r") "storage" "put" =
        Except.error (pre ++ "put") :=
  (dispatch_fail_fast ⟨[], ⟨0, 0, 0⟩⟩ (fun _ _ => Except.ok "r") "storage" "put"
    "op1" 0).2.2 (by decide)

/-! ## C9: connection monitor state transitions -/

/-- C9: starting from `online` (with no recorded failures), 3 consecutive
failed probes drive the state to `offline` via the intermediate state
`unstable`; and from `reconnecting`, a successful probe drives the state
to `online` and resets `consecutiveFailures` to 0. -/
theorem connection_state_transitions :
    connStep { status := ConnStatus.online, consecutiveFailures := 0 }
        ProbeEvent.probeFailure =
      { status := ConnStatus.unstable, consecutiveFailures := 1 } ∧
    connStep { status := ConnStatus.unstable, consecutiveFailures := 1 }
        ProbeEvent.probeFailure =
      { status := ConnStatus.unstable, consecutiveFailures := 2 } ∧
    connStep { status := ConnStatus.unstable, consecutiveFailures := 2 }
        ProbeEvent.probeFailure =
      { status := ConnStatus.offline, consecutiveFailures := 3 } ∧
    (∀ f : Nat,
      connStep { status := ConnStatus.reconnecting, consecutiveFailures := f }
          ProbeEvent.probeSuccess =
        { status := ConnStatus.online, consecutiveFailures := 0 }) :=
  ⟨rfl, rfl, rfl, fun _ => rfl⟩

/-! ## C10: logout clears the local auth state in every branch -/

/-- C10: when `logout()` resolves, the local auth state is cleared
regardless of the remote outcome: the `localStorage` keys `auth_token` and
`digipratibha_user` are removed and the response cache is empty in both
the remote-settled and the remote-throwing branch; and when the remote
`/auth/logout` request throws, `logout` still resolves with
`{ success: true }` instead of rejecting. -/
theorem logout_clears_local_state {α : Type} (st : ClientLocalState α)
    (remote : Except String (APIResponse Unit)) :
    lookupKey "auth_token" (logout st remote).2.localStorage = none ∧
    lookupKey "digipratibha_user" (logout st remote).2.localStorage = none ∧
    (logout st remote).2.cache = [] ∧
    (∀ e : String, remote = Except.error e →
      (logout st remote).1 = { success := true }) := by
  have hstate : (logout st remote).2.localStorage =
      deleteKey (deleteKey st.localStorage "auth_token") "digipratibha_user" := by
    cases remote <;> rfl
  have hcache : (logout st remote).2.cache = [] := by
    cases remote <;> rfl
  refine ⟨?_, ?_, hcache, ?_⟩
  · rw [hstate, lookupKey_deleteKey_ne _ (by decide), lookupKey_deleteKey_self]
  · rw [hstate, lookupKey_deleteKey_self]
  · intro e he
    rw [he]
    rfl

/-- C10 witness: a concrete logout whose remote call throws still resolves
successfully with the local state cleared. -/
theorem logout_clears_local_state_witness :
    (logout
        (⟨[("auth_token", "tok"), ("digipratibha_user", "u")],
          [("GET:/portfolios/me:undefined",
            ({ data := 0, timestamp := 0, ttl := 300000 } : CacheEntry Nat))]⟩ :
          ClientLocalState Nat)
        (Except.error "network down")).1 = { success := true } :=
  (logout_clears_local_state _ _).2.2.2 "network down" rfl

end DigiPratibha
